import Mathlib

/-!
# Verification of the Cloudflare-Workers B2 proxy (`src/index.ts`)

A shallow embedding of the worker's request handler, bucket allow-list,
AWS Signature V4 verifier (including executable SHA-256 / HMAC-SHA256 over
`Nat` byte lists), canonical-request builder, and the Backblaze B2 helper
functions, together with theorems settling the specification claims.

JavaScript strings are modelled as Lean `String`; byte buffers
(`ArrayBuffer` / `Uint8Array`) as `List Nat` with every element a byte.
-/

set_option maxRecDepth 100000
set_option maxHeartbeats 2000000

namespace B2Proxy

/-! ## Bytes and hex encoding -/

/-- One lowercase hexadecimal digit, as produced by `Number.prototype.toString(16)`. -/
def hexDigitLower (n : Nat) : Char :=
  (("0123456789abcdef".data).getD n '0')

/-- One uppercase hexadecimal digit, as produced by `toString(16).toUpperCase()`. -/
def hexDigitUpper (n : Nat) : Char :=
  (("0123456789ABCDEF".data).getD n '0')

/-- `b.toString(16).padStart(2, "0")` for a byte `b < 256`. -/
def byteToHexLower (b : Nat) : String :=
  String.mk [hexDigitLower (b / 16), hexDigitLower (b % 16)]

/-- Two uppercase hex digits of a byte, as used by percent-encoding. -/
def byteToHexUpper (b : Nat) : String :=
  String.mk [hexDigitUpper (b / 16), hexDigitUpper (b % 16)]

/-- `bufToHex` from the source: lowercase hex of every byte, concatenated. -/
def bufToHex (buf : List Nat) : String :=
  String.join (buf.map byteToHexLower)

/-- UTF-8 encoding of one character (what `TextEncoder.encode` does per code point). -/
def utf8Char (c : Char) : List Nat :=
  let n := c.toNat
  if n < 128 then [n]
  else if n < 2048 then [192 + n / 64, 128 + n % 64]
  else if n < 65536 then [224 + n / 4096, 128 + (n / 64) % 64, 128 + n % 64]
  else [240 + n / 262144, 128 + (n / 4096) % 64, 128 + (n / 64) % 64, 128 + n % 64]

/-- `new TextEncoder().encode(s)`: UTF-8 bytes of a string. -/
def utf8Bytes (s : String) : List Nat :=
  (s.data.map utf8Char).flatten

/-- UTF-16 code units of one character (surrogate pair when the code point
is astral); JavaScript strings are sequences of these units. -/
def utf16Char (c : Char) : List Nat :=
  let n := c.toNat
  if n < 65536 then [n]
  else [55296 + (n - 65536) / 1024, 56320 + (n - 65536) % 1024]

/-- The UTF-16 code-unit sequence of a string. -/
def utf16Units (s : String) : List Nat :=
  (s.data.map utf16Char).flatten

/-! ## JavaScript string operations used by the source -/

/-- If `l` starts with `pfx`, the rest of `l`. -/
def dropExactList : List Char → List Char → Option (List Char)
  | [], l => some l
  | _ :: _, [] => none
  | p :: ps, c :: cs => if p = c then dropExactList ps cs else none

/-- Split on a non-empty separator, leftmost-first; `fuel` bounds the scan
(pass the input length), `acc` holds the current piece reversed. -/
def jsSplitList (sep : List Char) : Nat → List Char → List Char → List (List Char)
  | _, acc, [] => [acc.reverse]
  | 0, acc, l => [acc.reverse ++ l]
  | fuel + 1, acc, c :: rest =>
    match dropExactList sep (c :: rest) with
    | some after => acc.reverse :: jsSplitList sep fuel [] after
    | none => jsSplitList sep fuel (c :: acc) rest

/-- `s.split(sep)` for a non-empty separator (the only way the source uses it). -/
def jsSplit (s sep : String) : List String :=
  (jsSplitList sep.data s.data.length [] s.data).map String.mk

/-- Does `l` start with `p`? -/
def startsWithList : List Char → List Char → Bool
  | [], _ => true
  | _ :: _, [] => false
  | p :: ps, c :: cs => decide (p = c) && startsWithList ps cs

/-- Does `l` contain `sub` as a contiguous run? -/
def containsList (sub : List Char) : List Char → Bool
  | [] => sub.isEmpty
  | c :: rest => startsWithList sub (c :: rest) || containsList sub rest

/-- `s.includes(sub)`. -/
def jsIncludes (s sub : String) : Bool := containsList sub.data s.data

/-- A whitespace character (the regex class `\s`, and what `trim` strips;
the cases arising in headers and configuration). -/
def isJsSpace (c : Char) : Bool :=
  decide (c ∈ [' ', '\t', '\n', '\r', '\x0b', '\x0c'])

/-- `s.trim()`: strip whitespace from both ends. -/
def jsTrim (s : String) : String :=
  String.mk (((s.data.dropWhile isJsSpace).reverse.dropWhile isJsSpace).reverse)

/-- ASCII lower-casing of one character. -/
def toLowerChar (c : Char) : Char :=
  if 'A' ≤ c && c ≤ 'Z' then Char.ofNat (c.toNat + 32) else c

/-- `s.toLowerCase()` (ASCII case mapping; header names here are ASCII). -/
def jsToLower (s : String) : String := String.mk (s.data.map toLowerChar)

/-- `s.substring(0, n)`. -/
def jsTake (s : String) (n : Nat) : String := String.mk (s.data.take n)

/-- Strict `<` on UTF-16 code-unit sequences: the order JavaScript's
string `<` / `>` comparison uses. -/
def u16lt : List Nat → List Nat → Bool
  | [], [] => false
  | [], _ :: _ => true
  | _ :: _, [] => false
  | a :: u, b :: v => decide (a < b) || (decide (a = b) && u16lt u v)

/-- JavaScript `a < b` on strings. -/
def jsStrLt (a b : String) : Bool := u16lt (utf16Units a) (utf16Units b)

/-- `x || d` for a possibly-null string `x`: JavaScript treats both `null`
and the empty string as falsy. -/
def jsOrDefault (x : Option String) (d : String) : String :=
  match x with
  | none => d
  | some s => if s = "" then d else s

/-! ## Header and search-parameter access

`Headers.get` is case-insensitive; `URLSearchParams.get` returns the first
value for the (case-sensitive, already-decoded) name, `has` tests presence.
Both collections are modelled as association lists in insertion order. -/

/-- `request.headers.get(name)`: first value under case-insensitive name. -/
def headersGet : List (String × String) → String → Option String
  | [], _ => none
  | p :: rest, name =>
    if jsToLower p.1 = jsToLower name then some p.2 else headersGet rest name

/-- `url.searchParams.get(key)`: first value for the key. -/
def spGet : List (String × String) → String → Option String
  | [], _ => none
  | p :: rest, key => if p.1 = key then some p.2 else spGet rest key

/-- `url.searchParams.has(key)`. -/
def spHas : List (String × String) → String → Bool
  | [], _ => false
  | p :: rest, key => decide (p.1 = key) || spHas rest key

/-! ## SHA-256 (FIPS 180-4), executable over `Nat`

This models what `crypto.subtle.digest("SHA-256", ...)` computes.  Words are
`Nat` kept below `2^32`; `add32` is addition mod `2^32`. -/

/-- `2^32`. -/
def M32 : Nat := 4294967296

/-- Addition of 32-bit words. -/
def add32 (a b : Nat) : Nat := (a + b) % M32

/-- Right rotation of a 32-bit word by `n`. -/
def rotr32 (n x : Nat) : Nat := (x >>> n) ||| ((x <<< (32 - n)) % M32)

/-- The 64 SHA-256 round constants. -/
def shaK : List Nat :=
  [1116352408, 1899447441, 3049323471, 3921009573, 961987163,
   1508970993, 2453635748, 2870763221, 3624381080, 310598401,
   607225278, 1426881987, 1925078388, 2162078206, 2614888103,
   3248222580, 3835390401, 4022224774, 264347078, 604807628,
   770255983, 1249150122, 1555081692, 1996064986, 2554220882,
   2821834349, 2952996808, 3210313671, 3336571891, 3584528711,
   113926993, 338241895, 666307205, 773529912, 1294757372,
   1396182291, 1695183700, 1986661051, 2177026350, 2456956037,
   2730485921, 2820302411, 3259730800, 3345764771, 3516065817,
   3600352804, 4094571909, 275423344, 430227734, 506948616,
   659060556, 883997877, 958139571, 1322822218, 1537002063,
   1747873779, 1955562222, 2024104815, 2227730452, 2361852424,
   2428436474, 2756734187, 3204031479, 3329325298]

/-- The eight SHA-256 initial hash values. -/
def shaH0 : List Nat :=
  [1779033703, 3144134277, 1013904242, 2773480762,
   1359893119, 2600822924, 528734635, 1541459225]

/-- `Σ₀`. -/
def bsig0 (x : Nat) : Nat := (rotr32 2 x) ^^^ (rotr32 13 x) ^^^ (rotr32 22 x)

/-- `Σ₁`. -/
def bsig1 (x : Nat) : Nat := (rotr32 6 x) ^^^ (rotr32 11 x) ^^^ (rotr32 25 x)

/-- `σ₀`. -/
def ssig0 (x : Nat) : Nat := (rotr32 7 x) ^^^ (rotr32 18 x) ^^^ (x >>> 3)

/-- `σ₁`. -/
def ssig1 (x : Nat) : Nat := (rotr32 17 x) ^^^ (rotr32 19 x) ^^^ (x >>> 10)

/-- `Ch(x,y,z)`. -/
def shaCh (x y z : Nat) : Nat := (x &&& y) ^^^ ((x ^^^ (M32 - 1)) &&& z)

/-- `Maj(x,y,z)`. -/
def shaMaj (x y z : Nat) : Nat := (x &&& y) ^^^ (x &&& z) ^^^ (y &&& z)

/-- Big-endian serialization of `v` into `n` bytes. -/
def toBytesBE : Nat → Nat → List Nat
  | 0, _ => []
  | n + 1, v => toBytesBE n (v / 256) ++ [v % 256]

/-- Parse a byte list as big-endian 32-bit words, four bytes at a time. -/
def bytesToWordsBE : List Nat → List Nat
  | a :: b :: c :: d :: rest => (a * 16777216 + b * 65536 + c * 256 + d) :: bytesToWordsBE rest
  | _ => []

/-- SHA-256 padding: append `0x80`, zeros to 56 mod 64, then the 64-bit
big-endian bit length. -/
def shaPad (msg : List Nat) : List Nat :=
  let len := msg.length
  let zeros := (119 - len % 64) % 64
  msg ++ [128] ++ List.replicate zeros 0 ++ toBytesBE 8 (len * 8)

/-- Split a list into 64-byte chunks; `fuel` bounds the recursion (pass the length). -/
def chunks64 : Nat → List Nat → List (List Nat)
  | 0, _ => []
  | _, [] => []
  | fuel + 1, l => l.take 64 :: chunks64 fuel (l.drop 64)

/-- One message-schedule extension step; `acc` holds the words produced so
far, most recent first. -/
def scheduleStep (acc : List Nat) : Nat :=
  add32 (add32 (ssig1 (acc.getD 1 0)) (acc.getD 6 0))
        (add32 (ssig0 (acc.getD 14 0)) (acc.getD 15 0))

/-- Run `n` schedule-extension steps. -/
def buildSchedule : Nat → List Nat → List Nat
  | 0, acc => acc
  | n + 1, acc => buildSchedule n (scheduleStep acc :: acc)

/-- The 64-word message schedule of one block (given as its 16 words). -/
def schedule (ws : List Nat) : List Nat :=
  (buildSchedule 48 ws.reverse).reverse

/-- One SHA-256 round: state is the list `[a,b,c,d,e,f,g,h]`, `kw` the pair
of round constant and schedule word. -/
def roundStep (st : List Nat) (kw : Nat × Nat) : List Nat :=
  match st with
  | [a, b, c, d, e, f, g, h] =>
    let t1 := add32 (add32 (add32 h (bsig1 e)) (add32 (shaCh e f g) kw.1)) kw.2
    let t2 := add32 (bsig0 a) (shaMaj a b c)
    [add32 t1 t2, a, b, c, add32 d t1, e, f, g]
  | st => st

/-- Compress one 64-byte block into the running eight-word state. -/
def compressBlock (h : List Nat) (block : List Nat) : List Nat :=
  let ws := schedule (bytesToWordsBE block)
  let st := (shaK.zip ws).foldl roundStep h
  List.zipWith add32 h st

/-- SHA-256 of a byte list, as 32 bytes. -/
def sha256Bytes (msg : List Nat) : List Nat :=
  let padded := shaPad msg
  let final := (chunks64 padded.length padded).foldl compressBlock shaH0
  (final.map (toBytesBE 4)).flatten

/-- HMAC-SHA256 (FIPS 198-1) over byte lists, as computed by
`crypto.subtle.sign("HMAC", ...)` with a SHA-256 key. -/
def hmacSha256Bytes (key msg : List Nat) : List Nat :=
  let k0 := if 64 < key.length then sha256Bytes key else key
  let kp := k0 ++ List.replicate (64 - k0.length) 0
  let ipad := kp.map (fun b => b ^^^ 54)
  let opad := kp.map (fun b => b ^^^ 92)
  sha256Bytes (opad ++ sha256Bytes (ipad ++ msg))

/-- `hmacSha256` from the source, for a byte-buffer key and string data. -/
def hmacSha256 (key : List Nat) (data : String) : List Nat :=
  hmacSha256Bytes key (utf8Bytes data)

/-- `sha256` from the source: lowercase hex of the SHA-256 of a string. -/
def sha256 (data : String) : String :=
  bufToHex (sha256Bytes (utf8Bytes data))

/-- `getSigningKey` from the source: the AWS V4 four-step key derivation. -/
def getSigningKey (secret date region service : String) : List Nat :=
  let kDate := hmacSha256 (utf8Bytes ("AWS4" ++ secret)) date
  let kRegion := hmacSha256 kDate region
  let kService := hmacSha256 kRegion service
  hmacSha256 kService "aws4_request"

/-! ## Requests, URLs and the environment

A `Request` is modelled at the point after the platform has parsed
`request.url` into a `URL` object: `searchParams` holds the decoded
key/value pairs in order, `pathname` the raw (still percent-encoded) path.
The request body is opaque (`Option Unit`): only its presence matters to
the code. -/

/-- The components of `new URL(request.url)` that the source reads. -/
structure ReqUrl where
  protocol : String
  hostname : String
  port : String
  pathname : String
  searchParams : List (String × String)
  deriving Repr, DecidableEq

/-- An inbound request. -/
structure Request where
  method : String
  url : ReqUrl
  headers : List (String × String)
  body : Option Unit
  deriving Repr, DecidableEq

/-- The worker's environment bindings (`interface Env`). -/
structure Env where
  ACCESS_KEY : String
  SECRET_KEY : String
  REGION : String
  B2_KEY_ID : String
  B2_APPLICATION_KEY : String
  B2_ENDPOINT : String
  B2_REGION : Option String
  ALLOWED_BUCKETS : Option String
  deriving Repr, DecidableEq

/-! ## Percent-encoding -/

/-- The characters `encodeURIComponent` leaves unescaped:
`A-Z a-z 0-9 - _ . ! ~ * ' ( )`. -/
def euriUnreserved (c : Char) : Bool :=
  (('A' ≤ c && c ≤ 'Z') || ('a' ≤ c && c ≤ 'z') || ('0' ≤ c && c ≤ '9')
    || decide (c ∈ ['-', '_', '.', '!', '~', '*', '\'', '(', ')']))

/-- `encodeURIComponent(s)`: unreserved characters kept, every other
character's UTF-8 bytes written as `%XX` with uppercase hex. -/
def encodeURIComponent (s : String) : String :=
  String.join (s.data.map fun c =>
    if euriUnreserved c then String.mk [c]
    else String.join ((utf8Char c).map (fun b => "%" ++ byteToHexUpper b)))

/-- `encodeRFC3986` from the source: `encodeURIComponent` followed by
`.replace(/[!'()*]/g, c => "%" + c.charCodeAt(0).toString(16).toUpperCase())`. -/
def encodeRFC3986 (str : String) : String :=
  String.join ((encodeURIComponent str).data.map fun c =>
    if decide (c ∈ ['!', '\'', '(', ')', '*']) then "%" ++ byteToHexUpper c.toNat
    else String.mk [c])

/-! ## Regex captures

The source uses two regular expressions on the `Authorization` header:
`/Signature=([a-f0-9]+)/` and `/SignedHeaders=([^,\s]+)/`.  Both are
"literal prefix, then a maximal non-empty run of allowed characters";
`capAfter` scans for the leftmost position where that matches and returns
the captured run. -/

/-- Leftmost match of `pfx` followed by one or more `good` characters;
returns the maximal `good` run after the prefix. -/
def capAfter (good : Char → Bool) (pfx : List Char) : List Char → Option String
  | [] => none
  | c :: rest =>
    match dropExactList pfx (c :: rest) with
    | some after =>
      let run := after.takeWhile good
      if run.isEmpty then capAfter good pfx rest else some (String.mk run)
    | none => capAfter good pfx rest

/-- A character of the class `[a-f0-9]`. -/
def isLowerHexDigit (c : Char) : Bool :=
  ('a' ≤ c && c ≤ 'f') || ('0' ≤ c && c ≤ '9')

/-- A character of the class `[^,\s]`. -/
def isNotCommaSpace (c : Char) : Bool := !(c = ',' || isJsSpace c)

/-! ## Canonical request construction (`createCanonicalRequest`) -/

/-- The order the source's comparator `(a, b) => a < b ? -1 : a > b ? 1 : 0`
induces on parameters: `a` may precede `b` iff the comparator does not
order `b` strictly before `a`, i.e. `¬(b.key < a.key)` under JavaScript
string comparison. -/
def paramOrder (a b : String × String) : Prop := jsStrLt b.1 a.1 = false

instance paramOrderDecidable : DecidableRel paramOrder :=
  fun a b => instDecidableEqBool (jsStrLt b.1 a.1) false

/-- The query-parameter component: drop `X-Amz-Signature`, stable-sort by
key under JavaScript string comparison, percent-encode keys and values,
join as `k=v` with `&`.  `Array.prototype.sort` with a consistent two-way
comparator is a stable sort with respect to `paramOrder`, which is what
`List.insertionSort` computes. -/
def canonicalizeParams (params : List (String × String)) : String :=
  let kept := params.filter (fun p => p.1 ≠ "X-Amz-Signature")
  let sorted := kept.insertionSort paramOrder
  String.intercalate "&" (sorted.map (fun p => encodeRFC3986 p.1 ++ "=" ++ encodeRFC3986 p.2))

/-- The signed-header-name list: from the `X-Amz-SignedHeaders` query
parameter under query auth, else from the `SignedHeaders=` capture of the
`Authorization` header, defaulting to `["host"]`. -/
def signedHeadersListOf (req : Request) (isQueryAuth : Bool) : List String :=
  if isQueryAuth then
    jsSplit ((spGet req.url.searchParams "X-Amz-SignedHeaders").getD "host") ";"
  else
    let authHeader := (headersGet req.headers "Authorization").getD ""
    match capAfter isNotCommaSpace "SignedHeaders=".data authHeader.data with
    | some captured => jsSplit captured ";"
    | none => ["host"]

/-- The value of one canonical-header line: the synthetic `host` value is
the URL's hostname plus a non-default port, any other header is read from
the request (trimmed, empty when absent). -/
def canonicalHeaderValue (req : Request) (headerName : String) : String :=
  if headerName = "host" then
    let base := req.url.hostname
    let port := req.url.port
    if port ≠ "" ∧
        ¬((req.url.protocol = "https:" ∧ port = "443") ∨
          (req.url.protocol = "http:" ∧ port = "80")) then
      base ++ ":" ++ port
    else base
  else
    match headersGet req.headers headerName with
    | some v => jsTrim v
    | none => ""

/-- `createCanonicalRequest` from the source. -/
def createCanonicalRequest (req : Request) (isQueryAuth : Bool) : String :=
  let url := req.url
  let method := req.method
  let canonicalUri := if url.pathname = "" then "/" else url.pathname
  let params := canonicalizeParams url.searchParams
  let signedHeadersList := signedHeadersListOf req isQueryAuth
  let canonicalHeaders := String.join (signedHeadersList.map fun h =>
    let headerName := jsToLower h
    headerName ++ ":" ++ canonicalHeaderValue req headerName ++ "\n")
  let signedHeaders := String.intercalate ";" signedHeadersList
  let payloadHash := (headersGet req.headers "x-amz-content-sha256").getD "UNSIGNED-PAYLOAD"
  String.intercalate "\n" [method, canonicalUri, params, canonicalHeaders, signedHeaders, payloadHash]

/-! ## Signature verification (`verifySignature`) -/

/-- Does the request use query-string (presigned-URL) authentication? -/
def isQueryAuth (req : Request) : Bool :=
  spHas req.url.searchParams "X-Amz-Algorithm"

/-- The extracted algorithm token: the `X-Amz-Algorithm` query parameter,
or the first space-separated word of the `Authorization` header. -/
def algorithmOf (req : Request) : String :=
  if isQueryAuth req then (spGet req.url.searchParams "X-Amz-Algorithm").getD ""
  else
    let authHeader := (headersGet req.headers "Authorization").getD ""
    (jsSplit authHeader " ").headD ""

/-- The extracted timestamp: `X-Amz-Date` query parameter under query auth,
else the `x-amz-date` header; empty when absent. -/
def datetimeOf (req : Request) : String :=
  (if isQueryAuth req then spGet req.url.searchParams "X-Amz-Date"
   else headersGet req.headers "x-amz-date").getD ""

/-- The caller-supplied signature: the `X-Amz-Signature` query parameter
under query auth, else the `Signature=([a-f0-9]+)` capture from the
`Authorization` header; empty when absent. -/
def suppliedSignature (req : Request) : String :=
  if isQueryAuth req then (spGet req.url.searchParams "X-Amz-Signature").getD ""
  else
    let authHeader := (headersGet req.headers "Authorization").getD ""
    (capAfter isLowerHexDigit "Signature=".data authHeader.data).getD ""

/-- The string to sign for a request, given the environment. -/
def stringToSignOf (req : Request) (env : Env) : String :=
  let datetime := datetimeOf req
  let date := jsTake datetime 8
  let hashedCanonicalRequest := sha256 (createCanonicalRequest req (isQueryAuth req))
  let credentialScope := date ++ "/" ++ env.REGION ++ "/s3/aws4_request"
  String.intercalate "\n" ["AWS4-HMAC-SHA256", datetime, credentialScope, hashedCanonicalRequest]

/-- The signature the verifier recomputes: lowercase hex of
HMAC-SHA256(signing key, string-to-sign). -/
def computedSignatureHex (req : Request) (env : Env) : String :=
  let date := jsTake (datetimeOf req) 8
  let signingKey := getSigningKey env.SECRET_KEY date env.REGION "s3"
  bufToHex (hmacSha256 signingKey (stringToSignOf req env))

/-- `verifySignature` from the source.  Returns `false` at the algorithm
gate (`!algorithm || !algorithm.includes("AWS4-HMAC-SHA256")`) and at a
missing timestamp; otherwise compares the recomputed hex signature with
the caller-supplied one by plain string equality. -/
def verifySignature (req : Request) (env : Env) : Bool :=
  let algorithm := algorithmOf req
  if algorithm = "" || !jsIncludes algorithm "AWS4-HMAC-SHA256" then false
  else if datetimeOf req = "" then false
  else computedSignatureHex req env == suppliedSignature req

/-! ## Bucket allow-list and path parsing -/

/-- `isAllowedBucket` from the source: deny when `ALLOWED_BUCKETS` is unset
or empty (falsy), deny when the comma-split, trimmed list has no non-empty
entries, else test membership. -/
def isAllowedBucket (bucket : String) (env : Env) : Bool :=
  match env.ALLOWED_BUCKETS with
  | none => false
  | some ab =>
    if ab = "" then false
    else
      let allowedBuckets := ((jsSplit ab ",").map jsTrim).filter (fun b => b ≠ "")
      if allowedBuckets.length = 0 then false
      else allowedBuckets.contains bucket

/-- `url.pathname.split("/").filter((p) => p)`: slash-separated segments,
empty ones dropped. -/
def pathPartsOf (pathname : String) : List String :=
  (jsSplit pathname "/").filter (fun p => p ≠ "")

/-- `pathParts[0] || ""`: the bucket. -/
def bucketOf (pathname : String) : String := (pathPartsOf pathname).headD ""

/-- `pathParts.slice(1).join("/")`: the object key. -/
def objectKeyOf (pathname : String) : String :=
  String.intercalate "/" ((pathPartsOf pathname).drop 1)

/-! ## Backblaze B2 helper functions

The backend (`client.fetch`, i.e. aws4fetch plus the network) is a function
from the request method and URL to a response; the helpers record the one
call they make so that theorems can state "no backend call happens".
A thrown `Error` is an `Except.error` carrying the message. -/

/-- What the backend returns for one forwarded request. -/
structure BackendResp where
  status : Nat
  headers : List (String × String)
  text : String
  deriving Repr, DecidableEq

/-- The B2 backend as a function of method and URL. -/
def Backend : Type := String → String → BackendResp

/-- `response.ok`: status in the range 200–299. -/
def respOk (r : BackendResp) : Bool := 200 ≤ r.status && r.status ≤ 299

/-- The result object of `uploadToB2` (`{ etag?: string }`). -/
structure UploadResult where
  etag : Option String
  deriving Repr, DecidableEq

/-- The result object of `downloadFromB2`. -/
structure DownloadResult where
  body : String
  contentType : String
  contentLength : String
  etag : String
  deriving Repr, DecidableEq

/-- The result object of `headB2Object`. -/
structure HeadResult where
  contentType : String
  contentLength : String
  etag : String
  deriving Repr, DecidableEq

/-- `uploadToB2`: throws when the request body is absent, else PUTs to
`https://{endpoint}/{bucket}/{objectKey}` and throws on a non-ok status.
`response.headers.get("ETag") || undefined` maps null and `""` to `none`.
The forwarded `Content-Type` does not influence the modelled backend. -/
def uploadToB2 (backend : Backend) (endpoint bucket objectKey : String)
    (body : Option Unit) (contentType : String) :
    Except String UploadResult × List (String × String) :=
  match body with
  | none => (.error "Request body is required", [])
  | some _ =>
    let url := "https://" ++ endpoint ++ "/" ++ bucket ++ "/" ++ objectKey
    let response := backend "PUT" url
    let _ := contentType
    if respOk response then
      (.ok { etag := match headersGet response.headers "ETag" with
                     | some s => if s = "" then none else some s
                     | none => none },
       [("PUT", url)])
    else
      (.error ("Upload failed: " ++ toString response.status ++ " " ++ response.text),
       [("PUT", url)])

/-- `downloadFromB2`: GET, throwing `Download failed: {status}` on non-ok. -/
def downloadFromB2 (backend : Backend) (endpoint bucket objectKey : String) :
    Except String DownloadResult × List (String × String) :=
  let url := "https://" ++ endpoint ++ "/" ++ bucket ++ "/" ++ objectKey
  let response := backend "GET" url
  if respOk response then
    (.ok { body := response.text,
           contentType := jsOrDefault (headersGet response.headers "Content-Type") "application/octet-stream",
           contentLength := jsOrDefault (headersGet response.headers "Content-Length") "0",
           etag := jsOrDefault (headersGet response.headers "ETag") "\"\"" },
     [("GET", url)])
  else
    (.error ("Download failed: " ++ toString response.status), [("GET", url)])

/-- `deleteFromB2`: DELETE, throwing `Delete failed: {status}` on non-ok. -/
def deleteFromB2 (backend : Backend) (endpoint bucket objectKey : String) :
    Except String Unit × List (String × String) :=
  let url := "https://" ++ endpoint ++ "/" ++ bucket ++ "/" ++ objectKey
  let response := backend "DELETE" url
  if respOk response then (.ok (), [("DELETE", url)])
  else (.error ("Delete failed: " ++ toString response.status), [("DELETE", url)])

/-- `headB2Object`: HEAD, throwing `HEAD failed: {status}` on non-ok. -/
def headB2Object (backend : Backend) (endpoint bucket objectKey : String) :
    Except String HeadResult × List (String × String) :=
  let url := "https://" ++ endpoint ++ "/" ++ bucket ++ "/" ++ objectKey
  let response := backend "HEAD" url
  if respOk response then
    (.ok { contentType := jsOrDefault (headersGet response.headers "Content-Type") "application/octet-stream",
           contentLength := jsOrDefault (headersGet response.headers "Content-Length") "0",
           etag := jsOrDefault (headersGet response.headers "ETag") "\"\"" },
     [("HEAD", url)])
  else
    (.error ("HEAD failed: " ++ toString response.status), [("HEAD", url)])

/-- `listB2Objects`: GET on the bare bucket URL, throwing
`List failed: {status}` on non-ok; returns the response text. -/
def listB2Objects (backend : Backend) (endpoint bucket : String) :
    Except String String × List (String × String) :=
  let url := "https://" ++ endpoint ++ "/" ++ bucket
  let response := backend "GET" url
  if respOk response then (.ok response.text, [("GET", url)])
  else (.error ("List failed: " ++ toString response.status), [("GET", url)])

/-! ## The request handler (`fetch` of the default export) -/

/-- The worker's `Response`: status, optional body text, headers. -/
structure WorkerResp where
  status : Nat
  body : Option String
  headers : List (String × String)
  deriving Repr, DecidableEq

/-- Minimal JSON string escaping, as `JSON.stringify` applies to the etag. -/
def jsonEscapeChar (c : Char) : String :=
  if c = '"' then "\\\"" else if c = '\\' then "\\\\" else String.mk [c]

/-- A JSON string literal. -/
def jsonStr (s : String) : String :=
  "\"" ++ String.join (s.data.map jsonEscapeChar) ++ "\""

/-- `JSON.stringify(result)` for the upload result (`undefined` fields are
omitted). -/
def jsonOfUploadResult (r : UploadResult) : String :=
  match r.etag with
  | none => "\x7b\x7d"
  | some e => "\x7b\"etag\":" ++ jsonStr e ++ "\x7d"

/-- The body of the `try` block of `fetch`: everything up to, but not
including, the outermost `catch`.  An `Except.error` is an exception still
propagating; the second component lists the backend calls made. -/
def fetchInner (env : Env) (backend : Backend) (req : Request) :
    Except String WorkerResp × List (String × String) :=
  if req.method = "OPTIONS" then (.ok ⟨204, none, []⟩, [])
  else
    let bucket := bucketOf req.url.pathname
    let objectKey := objectKeyOf req.url.pathname
    if !isAllowedBucket bucket env then
      (.ok ⟨403, some "Access denied to this bucket", []⟩, [])
    else if !verifySignature req env then
      (.ok ⟨403, some "Invalid Signature", []⟩, [])
    else
      let b2Endpoint := env.B2_ENDPOINT
      if req.method = "PUT" || req.method = "POST" then
        if objectKey = "" then (.ok ⟨400, some "Object key required", []⟩, [])
        else
          let contentType := jsOrDefault (headersGet req.headers "Content-Type") "application/octet-stream"
          match uploadToB2 backend b2Endpoint bucket objectKey req.body contentType with
          | (.ok result, calls) =>
            (.ok ⟨200, some (jsonOfUploadResult result),
                  [("Content-Type", "application/json"), ("ETag", (result.etag).getD "")]⟩, calls)
          | (.error e, calls) => (.error e, calls)
      else if req.method = "GET" then
        if objectKey = "" then
          match listB2Objects backend b2Endpoint bucket with
          | (.ok files, calls) =>
            (.ok ⟨200, some files, [("Content-Type", "application/xml")]⟩, calls)
          | (.error e, calls) => (.error e, calls)
        else
          match downloadFromB2 backend b2Endpoint bucket objectKey with
          | (.ok fileStream, calls) =>
            (.ok ⟨200, some fileStream.body,
                  [("Content-Type", fileStream.contentType),
                   ("Content-Length", fileStream.contentLength),
                   ("Cache-Control", "s-maxage=300, no-store"),
                   ("ETag", fileStream.etag)]⟩, calls)
          | (.error e, calls) =>
            if jsIncludes e "404" || jsIncludes e "NoSuchKey" then
              (.ok ⟨404, some "NoSuchKey", []⟩, calls)
            else (.error e, calls)
      else if req.method = "DELETE" then
        if objectKey = "" then (.ok ⟨400, some "Object key required", []⟩, [])
        else
          match deleteFromB2 backend b2Endpoint bucket objectKey with
          | (.ok _, calls) => (.ok ⟨204, none, []⟩, calls)
          | (.error e, calls) =>
            if jsIncludes e "404" || jsIncludes e "NoSuchKey" then
              (.ok ⟨404, none, []⟩, calls)
            else (.error e, calls)
      else if req.method = "HEAD" then
        if objectKey = "" then (.ok ⟨400, none, []⟩, [])
        else
          match headB2Object backend b2Endpoint bucket objectKey with
          | (.ok metadata, calls) =>
            (.ok ⟨200, none,
                  [("Content-Type", metadata.contentType),
                   ("Content-Length", metadata.contentLength),
                   ("ETag", metadata.etag)]⟩, calls)
          | (.error e, calls) =>
            if jsIncludes e "404" || jsIncludes e "NoSuchKey" then
              (.ok ⟨404, none, []⟩, calls)
            else (.error e, calls)
      else (.ok ⟨405, some "Method not allowed", []⟩, [])

/-- `fetch` of the default export: the `try` body wrapped in the outermost
`catch`, which turns any still-propagating error into a 500 response whose
body is the error's message. -/
def fetchHandler (env : Env) (backend : Backend) (req : Request) :
    WorkerResp × List (String × String) :=
  match fetchInner env backend req with
  | (.ok resp, calls) => (resp, calls)
  | (.error e, calls) => (⟨500, some e, []⟩, calls)

/-! ## Concrete fixtures

An environment mirroring the repository's test configuration, some
deterministic backends, and concrete requests.  The signature strings on
the signed fixtures are the hex values the embedded verifier computes for
exactly these requests (checked by `decide` in the theorems below). -/

/-- The test environment (allow-list `test-bucket,empty-bucket,my-bucket`). -/
def testEnv : Env :=
  { ACCESS_KEY := "test-access-key", SECRET_KEY := "test-secret-key", REGION := "auto",
    B2_KEY_ID := "kid", B2_APPLICATION_KEY := "app",
    B2_ENDPOINT := "s3.us-west-000.backblazeb2.com",
    B2_REGION := some "us-west-000",
    ALLOWED_BUCKETS := some "test-bucket,empty-bucket,my-bucket" }

/-- An environment with no `ALLOWED_BUCKETS` binding. -/
def envNoAllow : Env :=
  { ACCESS_KEY := "test-access-key", SECRET_KEY := "test-secret-key", REGION := "auto",
    B2_KEY_ID := "kid", B2_APPLICATION_KEY := "app",
    B2_ENDPOINT := "s3.us-west-000.backblazeb2.com",
    B2_REGION := none, ALLOWED_BUCKETS := none }

/-- A backend that always answers 200 with an ETag. -/
def bk200 : Backend := fun _ _ => { status := 200, headers := [("ETag", "\"mock\"")], text := "data" }

/-- A backend that always answers 404. -/
def bk404 : Backend := fun _ _ => { status := 404, headers := [], text := "" }

/-- A backend that always answers 503. -/
def bk503 : Backend := fun _ _ => { status := 503, headers := [], text := "oops" }

/-- A query-auth request fixture: the four presigned-URL parameters with
the given algorithm and signature values. -/
def mkQReq (method pathname alg sig : String) (body : Option Unit := none) : Request :=
  { method := method,
    url := { protocol := "https:", hostname := "s3-api.example.com", port := "",
             pathname := pathname,
             searchParams := [("X-Amz-Algorithm", alg), ("X-Amz-Date", "20240101T000000Z"),
                              ("X-Amz-SignedHeaders", "host"), ("X-Amz-Signature", sig)] },
    headers := [], body := body }

/-- GET on a bucket outside the allow-list. -/
def reqGetForbidden : Request := mkQReq "GET" "/forbidden-bucket/x" "a" "s"

/-- OPTIONS on a bucket outside the allow-list. -/
def reqOptionsForbidden : Request := mkQReq "OPTIONS" "/forbidden-bucket/x" "a" "s"

/-- A request with no authentication material at all. -/
def reqNoAuth : Request :=
  { method := "GET",
    url := { protocol := "https:", hostname := "s3-api.example.com", port := "",
             pathname := "/test-bucket/plain.txt", searchParams := [] },
    headers := [], body := none }

/-- Query-auth GET whose algorithm parameter is `bad` but whose signature
parameter is exactly the hex the verifier recomputes for this request. -/
def reqAlgBad : Request :=
  mkQReq "GET" "/test-bucket/file.txt" "bad"
    "f531ec088daed28615b6459e10c3e220ba4b4e2fc312eb2c1e070b3c966ee527"

/-- Query-auth GET with algorithm token `AWS4-HMAC-SHA256-EXTRA` (contains,
but does not equal, the identifier) and a matching signature. -/
def reqAlgExtra : Request :=
  mkQReq "GET" "/test-bucket/a.txt" "AWS4-HMAC-SHA256-EXTRA"
    "ad82a27a5f586316bfa3f228f4c098069792b1dbfaf4a57ed4937855558d169f"

/-- A well-formed (gates-passing) query-auth request with an arbitrary
signature value. -/
def reqC2w : Request := mkQReq "GET" "/test-bucket/w.txt" "AWS4-HMAC-SHA256" "deadbeef"

/-- Validly signed POST with a body. -/
def reqPostUp : Request :=
  mkQReq "POST" "/test-bucket/up.bin" "AWS4-HMAC-SHA256"
    "ab08e1db56650efad51110f9bb3d46eb40a39990765d495a22de3ab49628b2cc" (some ())

/-- Validly signed PATCH. -/
def reqPatch : Request :=
  mkQReq "PATCH" "/test-bucket/x" "AWS4-HMAC-SHA256"
    "0e0b72f0cebccfd2e555e6dbb38419f37cf61ac5fb3df6a340a6d8f9798409e6"

/-- Validly signed GET for an object. -/
def reqGetMissing : Request :=
  mkQReq "GET" "/test-bucket/missing.txt" "AWS4-HMAC-SHA256"
    "db08c7b53a0e6f2b34db4bc6b0ef39d2240ad9958f2592173150feec8ff66dbe"

/-- Validly signed PUT whose path names only the bucket. -/
def reqPutNoKey : Request :=
  mkQReq "PUT" "/test-bucket" "AWS4-HMAC-SHA256"
    "965106d624a359307e0afd350f9fecab3452d9b6fa07707f68f823fe9e4b6c90"

/-- Validly signed PUT with an object key but no body. -/
def reqPutNoBody : Request :=
  mkQReq "PUT" "/test-bucket/f.txt" "AWS4-HMAC-SHA256"
    "abfc1c206c81c44c4eeb438584d0546ddd97d17311f90f8f5f8a72bd4f9df2e2"

/-- Modelled from the spec's words for the refinement comparison: the
bucket is the first non-empty slash-separated segment. -/
def specBucketOf (pathname : String) : String :=
  ((jsSplit pathname "/").find? (fun s => s ≠ "")).getD ""

/-- Modelled from the spec's words: the object key is the remaining
non-empty segments joined with `/`. -/
def specObjectKeyOf (pathname : String) : String :=
  String.intercalate "/" ((((jsSplit pathname "/").dropWhile (fun s => s = "")).drop 1).filter
    (fun s => s ≠ ""))

/-- Abbreviation: the backend URL the helpers build for an object,
`https://{endpoint}/{bucket}/{objectKey}` with the handler's parsed bucket
and key. -/
def objectUrl (env : Env) (req : Request) : String :=
  "https://" ++ env.B2_ENDPOINT ++ "/" ++ bucketOf req.url.pathname ++ "/" ++
    objectKeyOf req.url.pathname

/-- Abbreviation: the backend URL for a bare bucket,
`https://{endpoint}/{bucket}`. -/
def bucketUrl (env : Env) (req : Request) : String :=
  "https://" ++ env.B2_ENDPOINT ++ "/" ++ bucketOf req.url.pathname

/-- The request with the value of every `X-Amz-Signature` query parameter
replaced by `s`. -/
def setQuerySignature (req : Request) (s : String) : Request :=
  let ps := req.url.searchParams.map (fun p => if p.1 = "X-Amz-Signature" then (p.1, s) else p)
  { req with url := { req.url with searchParams := ps } }

/-- The strict key order: `a.key < b.key` under JavaScript string
comparison. -/
def paramKeyLt (a b : String × String) : Prop := jsStrLt a.1 b.1 = true

/-- The request with its search parameters replaced by `ps`. -/
def withParams (req : Request) (ps : List (String × String)) : Request :=
  { req with url := { req.url with searchParams := ps } }

/-- A request with a duplicated query key. -/
def reqDupKeys1 : Request :=
  { method := "GET",
    url := { protocol := "https:", hostname := "h.example", port := "", pathname := "/b/k",
             searchParams := [("a", "1"), ("a", "2")] },
    headers := [], body := none }

/-- A request with two distinct query keys, given out of order. -/
def reqTwoKeys : Request :=
  { method := "GET",
    url := { protocol := "https:", hostname := "h.example", port := "", pathname := "/b/k",
             searchParams := [("b", "2"), ("a", "1")] },
    headers := [], body := none }

/-! ## Claim C1: allow-list check first -/

/-- Shared helper: a non-OPTIONS request on a non-allow-listed bucket is
answered 403 with no backend call, for every backend and signature. -/
theorem handler_denied_of_not_allowed (env : Env) (backend : Backend) (req : Request)
    (hm : req.method ≠ "OPTIONS")
    (hb : isAllowedBucket (bucketOf req.url.pathname) env = false) :
    (fetchHandler env backend req).1 = ⟨403, some "Access denied to this bucket", []⟩ ∧
    (fetchHandler env backend req).2 = [] := by
  simp [fetchHandler, fetchInner, hm, hb]

/-- C1 (amended): for every request other than OPTIONS whose bucket is not
in the allow-list, the handler answers 403 with body
`Access denied to this bucket` and makes no backend call — for every
backend and whether or not the signature is valid, so the check precedes
signature verification and any backend work. -/
theorem c1_denied_before_anything (env : Env) (backend : Backend) (req : Request)
    (hm : req.method ≠ "OPTIONS")
    (hb : isAllowedBucket (bucketOf req.url.pathname) env = false) :
    (fetchHandler env backend req).1 = ⟨403, some "Access denied to this bucket", []⟩ ∧
    (fetchHandler env backend req).2 = [] :=
  handler_denied_of_not_allowed env backend req hm hb

/-- C1 witness: the amended theorem applied to a concrete GET on
`forbidden-bucket`. -/
theorem c1_denied_before_anything_witness :
    reqGetForbidden.method ≠ "OPTIONS" ∧
    isAllowedBucket (bucketOf reqGetForbidden.url.pathname) testEnv = false ∧
    (fetchHandler testEnv bk200 reqGetForbidden).1 =
      ⟨403, some "Access denied to this bucket", []⟩ ∧
    (fetchHandler testEnv bk200 reqGetForbidden).2 = [] :=
  ⟨by decide, by decide,
   (c1_denied_before_anything testEnv bk200 reqGetForbidden (by decide) (by decide)).1,
   (c1_denied_before_anything testEnv bk200 reqGetForbidden (by decide) (by decide)).2⟩

/-- C1 counterexample: an OPTIONS request to a non-allow-listed bucket is
answered 204, not 403 — the OPTIONS early return precedes the allow-list
check, so the claim as stated ("for every inbound request") fails. -/
theorem c1_options_counterexample :
    isAllowedBucket (bucketOf reqOptionsForbidden.url.pathname) testEnv = false ∧
    (fetchHandler testEnv bk200 reqOptionsForbidden).1 = ⟨204, none, []⟩ ∧
    (fetchHandler testEnv bk200 reqOptionsForbidden).1.status ≠ 403 := by
  refine ⟨by decide, by decide, by decide⟩

/-! ## Claim C9: deny by default -/

/-- C9 (amended): with `ALLOWED_BUCKETS` unset, or set to a string whose
comma-split, trimmed entries are all empty, `isAllowedBucket` is `false`
for every bucket, and every request other than OPTIONS is answered 403. -/
theorem c9_deny_by_default (env : Env)
    (hempty : env.ALLOWED_BUCKETS = none ∨
      ∃ s, env.ALLOWED_BUCKETS = some s ∧
        ((jsSplit s ",").map jsTrim).filter (fun b => b ≠ "") = []) :
    (∀ b, isAllowedBucket b env = false) ∧
    ∀ (backend : Backend) (req : Request), req.method ≠ "OPTIONS" →
      (fetchHandler env backend req).1 = ⟨403, some "Access denied to this bucket", []⟩ := by
  have hfalse : ∀ b, isAllowedBucket b env = false := by
    intro b
    rcases hempty with h | ⟨s, hs, hflt⟩
    · simp [isAllowedBucket, h]
    · by_cases hse : s = ""
      · simp [isAllowedBucket, hs, hse]
      · simp only [isAllowedBucket, hs]
        rw [if_neg hse, hflt]
        simp
  refine ⟨hfalse, ?_⟩
  intro backend req hm
  exact (handler_denied_of_not_allowed env backend req hm (hfalse _)).1

/-- C9 witness: the amended theorem applied to the environment with no
`ALLOWED_BUCKETS` binding and a concrete GET request. -/
theorem c9_deny_by_default_witness :
    envNoAllow.ALLOWED_BUCKETS = none ∧
    isAllowedBucket "test-bucket" envNoAllow = false ∧
    (fetchHandler envNoAllow bk200 reqNoAuth).1 =
      ⟨403, some "Access denied to this bucket", []⟩ :=
  ⟨rfl, (c9_deny_by_default envNoAllow (.inl rfl)).1 "test-bucket",
   (c9_deny_by_default envNoAllow (.inl rfl)).2 bk200 reqNoAuth (by decide)⟩

/-- C9 counterexample: with `ALLOWED_BUCKETS` unset, an OPTIONS request is
still answered 204, so "every request (for any bucket) is rejected with
403" fails as stated. -/
theorem c9_options_counterexample :
    envNoAllow.ALLOWED_BUCKETS = none ∧
    (fetchHandler envNoAllow bk200 reqOptionsForbidden).1 = ⟨204, none, []⟩ ∧
    (fetchHandler envNoAllow bk200 reqOptionsForbidden).1.status ≠ 403 := by
  refine ⟨rfl, by decide, by decide⟩

/-! ## Claim C10: path parsing -/


/-- Helper: the head of a filtered list is its first satisfying element. -/
theorem filter_headD_eq_find?_getD (l : List String) (p : String → Bool) :
    (l.filter p).headD "" = (l.find? p).getD "" := by
  induction l with
  | nil => rfl
  | cons x xs ih =>
    by_cases hx : p x
    · simp [List.filter_cons, List.find?_cons, hx]
    · simp only [List.filter_cons, List.find?_cons, hx]
      exact ih

/-- Helper: dropping the first kept element commutes with the filter. -/
theorem filter_drop_one (l : List String) :
    (l.filter (fun s => s ≠ "")).drop 1 =
      ((l.dropWhile (fun s => s = "")).drop 1).filter (fun s => s ≠ "") := by
  induction l with
  | nil => rfl
  | cons x xs ih =>
    by_cases hx : x = ""
    · rw [List.filter_cons, if_neg (by simp [hx]), List.dropWhile_cons, if_pos (by simp [hx])]
      exact ih
    · simp [List.filter_cons, List.dropWhile_cons, hx]

/-- C10: the handler's path parsing equals the spec's description (first
non-empty segment is the bucket, remaining non-empty segments joined with
`/` are the key); consequently two paths with identical non-empty-segment
lists — e.g. paths differing only in leading, trailing or repeated
slashes — resolve to the same (bucket, key) pair, as on `/b//k/` versus
`/b/k`. -/
theorem c10_path_parsing :
    (∀ p, bucketOf p = specBucketOf p ∧ objectKeyOf p = specObjectKeyOf p) ∧
    (∀ p₁ p₂, pathPartsOf p₁ = pathPartsOf p₂ →
      bucketOf p₁ = bucketOf p₂ ∧ objectKeyOf p₁ = objectKeyOf p₂) ∧
    (bucketOf "/b//k/" = "b" ∧ objectKeyOf "/b//k/" = "k" ∧
      bucketOf "/b/k" = "b" ∧ objectKeyOf "/b/k" = "k") := by
  refine ⟨?_, ?_, by decide⟩
  · intro p
    constructor
    · exact filter_headD_eq_find?_getD (jsSplit p "/") (fun s => s ≠ "")
    · simp only [objectKeyOf, specObjectKeyOf, pathPartsOf]
      rw [filter_drop_one]
  · intro p₁ p₂ h
    exact ⟨by simp [bucketOf, h], by simp [objectKeyOf, h]⟩

/-- C10 witness: the segment-list-equality hypothesis discharged at the
concrete pair `/b//k/` and `/b/k`. -/
theorem c10_path_parsing_witness :
    pathPartsOf "/b//k/" = pathPartsOf "/b/k" ∧
    bucketOf "/b//k/" = bucketOf "/b/k" ∧
    objectKeyOf "/b//k/" = objectKeyOf "/b/k" :=
  ⟨by decide, (c10_path_parsing.2.1 "/b//k/" "/b/k" (by decide)).1,
   (c10_path_parsing.2.1 "/b//k/" "/b/k" (by decide)).2⟩

/-! ## Claim C5: unhandled methods -/

/-- C5 (amended): for every allow-listed, validly-signed request whose
method is none of PUT, POST, GET, HEAD, DELETE or OPTIONS, the handler
returns 405 `Method not allowed` and makes no backend call.  (POST is
handled by the upload branch, so the claim's list must include it.) -/
theorem c5_unknown_method_405 (env : Env) (backend : Backend) (req : Request)
    (hallow : isAllowedBucket (bucketOf req.url.pathname) env = true)
    (hsig : verifySignature req env = true)
    (hm : req.method ∉ (["PUT", "POST", "GET", "DELETE", "HEAD", "OPTIONS"] : List String)) :
    (fetchHandler env backend req).1 = ⟨405, some "Method not allowed", []⟩ ∧
    (fetchHandler env backend req).2 = [] := by
  simp only [List.mem_cons, List.not_mem_nil, or_false, not_or] at hm
  obtain ⟨h1, h2, h3, h4, h5, h6⟩ := hm
  simp [fetchHandler, fetchInner, hallow, hsig, h1, h2, h3, h4, h5, h6]

/-- C5 witness: the amended theorem applied to a validly signed PATCH. -/
theorem c5_unknown_method_405_witness :
    isAllowedBucket (bucketOf reqPatch.url.pathname) testEnv = true ∧
    verifySignature reqPatch testEnv = true ∧
    reqPatch.method = "PATCH" ∧
    (fetchHandler testEnv bk200 reqPatch).1 = ⟨405, some "Method not allowed", []⟩ :=
  ⟨by decide, by decide, rfl,
   (c5_unknown_method_405 testEnv bk200 reqPatch (by decide) (by decide) (by decide)).1⟩

/-- C5 counterexample: a validly signed, allow-listed POST with a body is
answered 200 by the upload branch, not 405 as the claim states. -/
theorem c5_post_counterexample :
    isAllowedBucket (bucketOf reqPostUp.url.pathname) testEnv = true ∧
    verifySignature reqPostUp testEnv = true ∧
    reqPostUp.method = "POST" ∧
    (fetchHandler testEnv bk200 reqPostUp).1.status = 200 ∧
    (fetchHandler testEnv bk200 reqPostUp).1.status ≠ 405 := by
  refine ⟨by decide, by decide, rfl, by decide, by decide⟩

/-! ## Claim C7: empty object key -/

/-- C7: for an allow-listed, validly-signed request whose object key is
empty, PUT and DELETE return 400 `Object key required`, HEAD returns a
bodyless 400 — in all three cases with no backend call — while GET
performs the bucket listing (one GET call on the bare bucket URL,
answered 200 with the listing body and `application/xml` when the backend
succeeds). -/
theorem c7_empty_key (env : Env) (backend : Backend) (req : Request)
    (hallow : isAllowedBucket (bucketOf req.url.pathname) env = true)
    (hsig : verifySignature req env = true)
    (hkey : objectKeyOf req.url.pathname = "") :
    (req.method = "PUT" →
      (fetchHandler env backend req).1 = ⟨400, some "Object key required", []⟩ ∧
      (fetchHandler env backend req).2 = []) ∧
    (req.method = "DELETE" →
      (fetchHandler env backend req).1 = ⟨400, some "Object key required", []⟩ ∧
      (fetchHandler env backend req).2 = []) ∧
    (req.method = "HEAD" →
      (fetchHandler env backend req).1 = ⟨400, none, []⟩ ∧
      (fetchHandler env backend req).2 = []) ∧
    (req.method = "GET" →
      (fetchHandler env backend req).2 =
        [("GET", "https://" ++ env.B2_ENDPOINT ++ "/" ++ bucketOf req.url.pathname)] ∧
      (respOk (backend "GET" ("https://" ++ env.B2_ENDPOINT ++ "/" ++ bucketOf req.url.pathname)) = true →
        (fetchHandler env backend req).1 =
          ⟨200, some (backend "GET" ("https://" ++ env.B2_ENDPOINT ++ "/" ++ bucketOf req.url.pathname)).text,
           [("Content-Type", "application/xml")]⟩)) := by
  refine ⟨?_, ?_, ?_, ?_⟩
  · intro hm
    constructor <;> simp [fetchHandler, fetchInner, hallow, hsig, hkey, hm]
  · intro hm
    constructor <;> simp [fetchHandler, fetchInner, hallow, hsig, hkey, hm]
  · intro hm
    constructor <;> simp [fetchHandler, fetchInner, hallow, hsig, hkey, hm]
  · intro hm
    by_cases hok : respOk (backend "GET" ("https://" ++ env.B2_ENDPOINT ++ "/" ++ bucketOf req.url.pathname)) = true
    · constructor
      · simp [fetchHandler, fetchInner, listB2Objects, hallow, hsig, hkey, hm, hok]
      · intro _
        simp [fetchHandler, fetchInner, listB2Objects, hallow, hsig, hkey, hm, hok]
    · have hok' : respOk (backend "GET" ("https://" ++ env.B2_ENDPOINT ++ "/" ++ bucketOf req.url.pathname)) = false :=
        Bool.not_eq_true _ ▸ Bool.eq_false_iff.mpr hok
      constructor
      · simp [fetchHandler, fetchInner, listB2Objects, hallow, hsig, hkey, hm, hok']
      · intro h
        exact absurd h hok

/-- C7 witness: the PUT conjunct applied to a validly signed PUT whose
path names only the bucket. -/
theorem c7_empty_key_witness :
    isAllowedBucket (bucketOf reqPutNoKey.url.pathname) testEnv = true ∧
    verifySignature reqPutNoKey testEnv = true ∧
    objectKeyOf reqPutNoKey.url.pathname = "" ∧
    (fetchHandler testEnv bk200 reqPutNoKey).1 = ⟨400, some "Object key required", []⟩ ∧
    (fetchHandler testEnv bk200 reqPutNoKey).2 = [] :=
  ⟨by decide, by decide, by decide,
   ((c7_empty_key testEnv bk200 reqPutNoKey (by decide) (by decide) (by decide)).1 rfl).1,
   ((c7_empty_key testEnv bk200 reqPutNoKey (by decide) (by decide) (by decide)).1 rfl).2⟩

/-! ## Claim C6: backend not-found handling -/


/-- C6: when the backend answers 404 for an existing-object operation the
handler returns 404 — body `NoSuchKey` for GET, empty for HEAD and
DELETE — while a backend failure not classified as not-found (message
containing neither `404` nor `NoSuchKey`) is rethrown by each of the
GET, HEAD and DELETE inner catches and surfaces as the 500 of the
outermost catch rather than a 404. -/
theorem c6_backend_notfound (env : Env) (backend : Backend) (req : Request)
    (hallow : isAllowedBucket (bucketOf req.url.pathname) env = true)
    (hsig : verifySignature req env = true)
    (hkey : objectKeyOf req.url.pathname ≠ "") :
    (req.method = "GET" → (backend "GET" (objectUrl env req)).status = 404 →
      (fetchHandler env backend req).1 = ⟨404, some "NoSuchKey", []⟩) ∧
    (req.method = "HEAD" → (backend "HEAD" (objectUrl env req)).status = 404 →
      (fetchHandler env backend req).1 = ⟨404, none, []⟩) ∧
    (req.method = "DELETE" → (backend "DELETE" (objectUrl env req)).status = 404 →
      (fetchHandler env backend req).1 = ⟨404, none, []⟩) ∧
    (req.method = "GET" → respOk (backend "GET" (objectUrl env req)) = false →
      jsIncludes ("Download failed: " ++ toString (backend "GET" (objectUrl env req)).status) "404" = false →
      jsIncludes ("Download failed: " ++ toString (backend "GET" (objectUrl env req)).status) "NoSuchKey" = false →
      (fetchHandler env backend req).1 =
        ⟨500, some ("Download failed: " ++ toString (backend "GET" (objectUrl env req)).status), []⟩) ∧
    (req.method = "HEAD" → respOk (backend "HEAD" (objectUrl env req)) = false →
      jsIncludes ("HEAD failed: " ++ toString (backend "HEAD" (objectUrl env req)).status) "404" = false →
      jsIncludes ("HEAD failed: " ++ toString (backend "HEAD" (objectUrl env req)).status) "NoSuchKey" = false →
      (fetchHandler env backend req).1 =
        ⟨500, some ("HEAD failed: " ++ toString (backend "HEAD" (objectUrl env req)).status), []⟩) ∧
    (req.method = "DELETE" → respOk (backend "DELETE" (objectUrl env req)) = false →
      jsIncludes ("Delete failed: " ++ toString (backend "DELETE" (objectUrl env req)).status) "404" = false →
      jsIncludes ("Delete failed: " ++ toString (backend "DELETE" (objectUrl env req)).status) "NoSuchKey" = false →
      (fetchHandler env backend req).1 =
        ⟨500, some ("Delete failed: " ++ toString (backend "DELETE" (objectUrl env req)).status), []⟩) := by
  refine ⟨?_, ?_, ?_, ?_, ?_, ?_⟩
  · intro hm hst
    have hok : respOk (backend "GET" (objectUrl env req)) = false := by
      simp [respOk, hst]
    have hinc : jsIncludes ("Download failed: " ++ toString (backend "GET" (objectUrl env req)).status) "404" = true := by
      rw [hst]; decide
    simp [fetchHandler, fetchInner, downloadFromB2, objectUrl, hallow, hsig, hkey, hm] at hok hinc ⊢
    simp [hok, hinc]
  · intro hm hst
    have hok : respOk (backend "HEAD" (objectUrl env req)) = false := by
      simp [respOk, hst]
    have hinc : jsIncludes ("HEAD failed: " ++ toString (backend "HEAD" (objectUrl env req)).status) "404" = true := by
      rw [hst]; decide
    simp [fetchHandler, fetchInner, headB2Object, objectUrl, hallow, hsig, hkey, hm] at hok hinc ⊢
    simp [hok, hinc]
  · intro hm hst
    have hok : respOk (backend "DELETE" (objectUrl env req)) = false := by
      simp [respOk, hst]
    have hinc : jsIncludes ("Delete failed: " ++ toString (backend "DELETE" (objectUrl env req)).status) "404" = true := by
      rw [hst]; decide
    simp [fetchHandler, fetchInner, deleteFromB2, objectUrl, hallow, hsig, hkey, hm] at hok hinc ⊢
    simp [hok, hinc]
  · intro hm hok hinc1 hinc2
    simp [objectUrl] at hok hinc1 hinc2
    simp [fetchHandler, fetchInner, downloadFromB2, objectUrl, hallow, hsig, hkey, hm, hok,
      hinc1, hinc2]
  · intro hm hok hinc1 hinc2
    simp [objectUrl] at hok hinc1 hinc2
    simp [fetchHandler, fetchInner, headB2Object, objectUrl, hallow, hsig, hkey, hm, hok,
      hinc1, hinc2]
  · intro hm hok hinc1 hinc2
    simp [objectUrl] at hok hinc1 hinc2
    simp [fetchHandler, fetchInner, deleteFromB2, objectUrl, hallow, hsig, hkey, hm, hok,
      hinc1, hinc2]

/-- C6 witness: the GET conjunct applied to a validly signed GET against
the backend that answers 404. -/
theorem c6_backend_notfound_witness :
    isAllowedBucket (bucketOf reqGetMissing.url.pathname) testEnv = true ∧
    verifySignature reqGetMissing testEnv = true ∧
    objectKeyOf reqGetMissing.url.pathname ≠ "" ∧
    (bk404 "GET" (objectUrl testEnv reqGetMissing)).status = 404 ∧
    (fetchHandler testEnv bk404 reqGetMissing).1 = ⟨404, some "NoSuchKey", []⟩ :=
  ⟨by decide, by decide, by decide, rfl,
   (c6_backend_notfound testEnv bk404 reqGetMissing (by decide) (by decide) (by decide)).1 rfl rfl⟩

/-! ## Claim C8: the outermost catch -/

/-- C8: every error thrown inside the handler that no inner catch converts
is caught once at the outermost boundary: whenever the try body
(`fetchInner`) ends with a still-propagating error — be it a direct throw
or a rethrow from the GET, DELETE or HEAD inner catches — the handler
returns exactly a 500 response whose body is that error's message, and the
handler always returns a response (it is a total function).  The remaining
conjuncts trace the propagation concretely through the branches without an
inner catch: a missing upload body, a failed upload, and a failed bucket
listing. -/
theorem c8_uncaught_errors_become_500 (env : Env) (backend : Backend) (req : Request)
    (hallow : isAllowedBucket (bucketOf req.url.pathname) env = true)
    (hsig : verifySignature req env = true) :
    (∀ e calls, fetchInner env backend req = (Except.error e, calls) →
      fetchHandler env backend req = (⟨500, some e, []⟩, calls)) ∧
    ((req.method = "PUT" ∨ req.method = "POST") → objectKeyOf req.url.pathname ≠ "" →
      req.body = none →
      (fetchHandler env backend req).1 = ⟨500, some "Request body is required", []⟩) ∧
    ((req.method = "PUT" ∨ req.method = "POST") → objectKeyOf req.url.pathname ≠ "" →
      req.body = some () → respOk (backend "PUT" (objectUrl env req)) = false →
      (fetchHandler env backend req).1 =
        ⟨500, some ("Upload failed: " ++ toString (backend "PUT" (objectUrl env req)).status ++
          " " ++ (backend "PUT" (objectUrl env req)).text), []⟩) ∧
    (req.method = "GET" → objectKeyOf req.url.pathname = "" →
      respOk (backend "GET" (bucketUrl env req)) = false →
      (fetchHandler env backend req).1 =
        ⟨500, some ("List failed: " ++ toString (backend "GET" (bucketUrl env req)).status), []⟩) := by
  refine ⟨?_, ?_, ?_, ?_⟩
  · intro e calls h
    simp [fetchHandler, h]
  · intro hm hkey hbody
    rcases hm with hm | hm <;>
      simp [fetchHandler, fetchInner, uploadToB2, hallow, hsig, hkey, hbody, hm]
  · intro hm hkey hbody hok
    simp [objectUrl] at hok
    rcases hm with hm | hm <;>
      simp [fetchHandler, fetchInner, uploadToB2, hallow, hsig, hkey, hbody, hm, hok, objectUrl]
  · intro hm hkey hok
    simp [bucketUrl] at hok
    simp [fetchHandler, fetchInner, listB2Objects, hallow, hsig, hkey, hm, hok, bucketUrl]

/-- C8 witness: the universal catch conjunct and the missing-body conjunct
applied to a validly signed PUT with no request body, whose `fetchInner`
run ends with a propagating error. -/
theorem c8_uncaught_errors_become_500_witness :
    isAllowedBucket (bucketOf reqPutNoBody.url.pathname) testEnv = true ∧
    verifySignature reqPutNoBody testEnv = true ∧
    fetchInner testEnv bk200 reqPutNoBody = (Except.error "Request body is required", []) ∧
    (fetchHandler testEnv bk200 reqPutNoBody =
      (⟨500, some "Request body is required", []⟩, [])) ∧
    (fetchHandler testEnv bk200 reqPutNoBody).1 = ⟨500, some "Request body is required", []⟩ :=
  ⟨by decide, by decide, rfl,
   (c8_uncaught_errors_become_500 testEnv bk200 reqPutNoBody (by decide) (by decide)).1
     "Request body is required" [] rfl,
   (c8_uncaught_errors_become_500 testEnv bk200 reqPutNoBody (by decide) (by decide)).2.1
     (Or.inl rfl) (by decide) rfl⟩

/-! ## Claim C3: verifier gates -/

/-- C3 (amended): `verifySignature` returns `false` (it is a total Boolean
function, so it never throws) whenever the extracted algorithm token is
empty or does not contain `AWS4-HMAC-SHA256` as a substring, or the
timestamp is absent.  (The source tests `includes`, not equality, which is
why "does not equal" had to become "does not contain".) -/
theorem c3_reject_malformed (req : Request) (env : Env)
    (h : algorithmOf req = "" ∨ jsIncludes (algorithmOf req) "AWS4-HMAC-SHA256" = false ∨
      datetimeOf req = "") :
    verifySignature req env = false := by
  rcases h with h | h | h
  · simp [verifySignature, h]
  · simp [verifySignature, h]
  · by_cases hg : algorithmOf req = ""
    · simp [verifySignature, hg]
    · by_cases hi : jsIncludes (algorithmOf req) "AWS4-HMAC-SHA256"
      · simp [verifySignature, hg, hi, h]
      · simp [verifySignature, hg, hi]

/-- C3 witness: the theorem applied to a request with no authentication
material (empty algorithm token). -/
theorem c3_reject_malformed_witness :
    algorithmOf reqNoAuth = "" ∧ verifySignature reqNoAuth testEnv = false :=
  ⟨by decide, c3_reject_malformed reqNoAuth testEnv (Or.inl (by decide))⟩

/-- C3 counterexample: the algorithm token `AWS4-HMAC-SHA256-EXTRA` does
not equal `AWS4-HMAC-SHA256`, yet the verifier accepts the request (the
source checks `includes`, not equality), refuting "rejects whenever the
token does not equal the identifier". -/
theorem c3_includes_counterexample :
    algorithmOf reqAlgExtra ≠ "AWS4-HMAC-SHA256" ∧
    verifySignature reqAlgExtra testEnv = true := by
  refine ⟨by decide, by decide⟩

/-! ## Claim C2: signature comparison -/


/-- Helper: replacing signature values leaves key presence unchanged. -/
theorem spHas_setSig (ps : List (String × String)) (s k : String) :
    spHas (ps.map (fun p => if p.1 = "X-Amz-Signature" then (p.1, s) else p)) k =
      spHas ps k := by
  induction ps with
  | nil => rfl
  | cons p rest ih =>
    simp only [List.map_cons, spHas]
    by_cases hp : p.1 = "X-Amz-Signature" <;> simp [hp, ih]

/-- Helper: replacing signature values leaves other keys' lookups unchanged. -/
theorem spGet_setSig_ne (ps : List (String × String)) (s k : String)
    (hk : k ≠ "X-Amz-Signature") :
    spGet (ps.map (fun p => if p.1 = "X-Amz-Signature" then (p.1, s) else p)) k =
      spGet ps k := by
  induction ps with
  | nil => rfl
  | cons p rest ih =>
    simp only [List.map_cons, spGet]
    by_cases hp : p.1 = "X-Amz-Signature"
    · rw [if_pos hp]
      have hne : p.1 ≠ k := fun h => hk (h ▸ hp)
      simp only [spGet]
      rw [if_neg hne, if_neg hne]
      exact ih
    · rw [if_neg hp]
      by_cases hpk : p.1 = k
      · rw [if_pos hpk, if_pos hpk]
      · rw [if_neg hpk, if_neg hpk]
        exact ih

/-- Helper: the signature lookup after replacement is the replacement. -/
theorem spGet_setSig_self (ps : List (String × String)) (s : String) :
    spGet (ps.map (fun p => if p.1 = "X-Amz-Signature" then (p.1, s) else p))
        "X-Amz-Signature" =
      (spGet ps "X-Amz-Signature").map (fun _ => s) := by
  induction ps with
  | nil => rfl
  | cons p rest ih =>
    simp only [List.map_cons, spGet]
    by_cases hp : p.1 = "X-Amz-Signature"
    · rw [if_pos hp]
      simp [hp]
    · rw [if_neg hp]
      rw [if_neg hp, if_neg hp]
      exact ih

/-- Helper: dropping the signature parameter commutes with the replacement. -/
theorem filter_setSig (ps : List (String × String)) (s : String) :
    (ps.map (fun p => if p.1 = "X-Amz-Signature" then (p.1, s) else p)).filter
        (fun p => p.1 ≠ "X-Amz-Signature") =
      ps.filter (fun p => p.1 ≠ "X-Amz-Signature") := by
  induction ps with
  | nil => rfl
  | cons p rest ih =>
    simp only [decide_not] at ih
    simp only [List.map_cons, List.filter_cons]
    by_cases hp : p.1 = "X-Amz-Signature"
    · rw [if_pos hp]
      simp [hp, ih]
    · rw [if_neg hp]
      simp [hp, ih]

/-- Helper: a present key's lookup is `some`. -/
theorem spGet_isSome_of_spHas (ps : List (String × String)) (k : String)
    (h : spHas ps k = true) : (spGet ps k).isSome := by
  induction ps with
  | nil => exact absurd h (by simp [spHas])
  | cons p rest ih =>
    by_cases hp : p.1 = k
    · simp [spGet, hp]
    · simp only [spHas, hp] at h
      simp only [spGet]
      rw [if_neg hp]
      simp at h
      exact ih h

/-- Helper: `setQuerySignature` does not change whether query auth is used. -/
theorem isQueryAuth_setSig (req : Request) (s : String) :
    isQueryAuth (setQuerySignature req s) = isQueryAuth req := by
  simp only [isQueryAuth, setQuerySignature]
  exact spHas_setSig req.url.searchParams s "X-Amz-Algorithm"

/-- Helper: `setQuerySignature` does not change the algorithm token. -/
theorem algorithmOf_setSig (req : Request) (s : String) :
    algorithmOf (setQuerySignature req s) = algorithmOf req := by
  simp only [algorithmOf, isQueryAuth_setSig]
  by_cases hq : isQueryAuth req
  · simp only [hq, if_true]
    rw [show (setQuerySignature req s).url.searchParams =
        req.url.searchParams.map (fun p => if p.1 = "X-Amz-Signature" then (p.1, s) else p)
      from rfl]
    rw [spGet_setSig_ne req.url.searchParams s "X-Amz-Algorithm" (by decide)]
  · rw [Bool.not_eq_true] at hq
    rw [hq]
    rfl

/-- Helper: `setQuerySignature` does not change the timestamp. -/
theorem datetimeOf_setSig (req : Request) (s : String) :
    datetimeOf (setQuerySignature req s) = datetimeOf req := by
  simp only [datetimeOf, isQueryAuth_setSig]
  by_cases hq : isQueryAuth req
  · simp only [hq, if_true]
    rw [show (setQuerySignature req s).url.searchParams =
        req.url.searchParams.map (fun p => if p.1 = "X-Amz-Signature" then (p.1, s) else p)
      from rfl]
    rw [spGet_setSig_ne req.url.searchParams s "X-Amz-Date" (by decide)]
  · rw [Bool.not_eq_true] at hq
    rw [hq]
    rfl

/-- Helper: `setQuerySignature` does not change the canonical request;
the query component drops `X-Amz-Signature` before sorting. -/
theorem createCanonicalRequest_setSig (req : Request) (s : String) (iq : Bool) :
    createCanonicalRequest (setQuerySignature req s) iq = createCanonicalRequest req iq := by
  have hparams : canonicalizeParams (setQuerySignature req s).url.searchParams =
      canonicalizeParams req.url.searchParams := by
    simp only [canonicalizeParams]
    rw [show (setQuerySignature req s).url.searchParams =
        req.url.searchParams.map (fun p => if p.1 = "X-Amz-Signature" then (p.1, s) else p)
      from rfl]
    rw [filter_setSig]
  have hshl : signedHeadersListOf (setQuerySignature req s) iq = signedHeadersListOf req iq := by
    cases iq with
    | true =>
      simp only [signedHeadersListOf, if_true]
      rw [show (setQuerySignature req s).url.searchParams =
          req.url.searchParams.map (fun p => if p.1 = "X-Amz-Signature" then (p.1, s) else p)
        from rfl]
      rw [spGet_setSig_ne req.url.searchParams s "X-Amz-SignedHeaders" (by decide)]
    | false => rfl
  simp only [createCanonicalRequest, hparams, hshl]
  rfl

/-- Helper: `setQuerySignature` does not change the recomputed signature. -/
theorem computedSignatureHex_setSig (req : Request) (env : Env) (s : String) :
    computedSignatureHex (setQuerySignature req s) env = computedSignatureHex req env := by
  simp only [computedSignatureHex, stringToSignOf, datetimeOf_setSig, isQueryAuth_setSig,
    createCanonicalRequest_setSig]

/-- Helper: after replacement, the supplied signature is the replacement
(query auth, parameter present). -/
theorem suppliedSignature_setSig (req : Request) (s : String)
    (hq : isQueryAuth req = true)
    (hhas : spHas req.url.searchParams "X-Amz-Signature" = true) :
    suppliedSignature (setQuerySignature req s) = s := by
  simp only [suppliedSignature, isQueryAuth_setSig, hq, if_true]
  rw [show (setQuerySignature req s).url.searchParams =
      req.url.searchParams.map (fun p => if p.1 = "X-Amz-Signature" then (p.1, s) else p)
    from rfl]
  rw [spGet_setSig_self req.url.searchParams s]
  rcases ho : spGet req.url.searchParams "X-Amz-Signature" with _ | v
  · exact absurd (spGet_isSome_of_spHas _ _ hhas) (by simp [ho])
  · rfl

/-- C2 (amended): for every request passing the verifier's preliminary
gates (non-empty algorithm token containing `AWS4-HMAC-SHA256`, timestamp
present), `verifySignature` returns true iff the caller-supplied signature
string equals the lowercase hex HMAC-SHA256 of the string-to-sign under
the four-step-derived signing key - an ordinary string equality; and for a
query-auth request carrying an `X-Amz-Signature` parameter that verifies,
replacing the supplied signature by any different string makes the
verifier return false.  (Changing the credential-scope inputs or the
timestamp changes the recomputed hex, and falsity then follows from the
same equivalence applied to the changed request; that step genuinely needs
the recomputed MAC to differ, i.e. the absence of an HMAC collision.) -/
theorem c2_signature_equality (req : Request) (env : Env)
    (halg1 : algorithmOf req ≠ "")
    (halg2 : jsIncludes (algorithmOf req) "AWS4-HMAC-SHA256" = true)
    (hdt : datetimeOf req ≠ "") :
    ((verifySignature req env = true) ↔
      suppliedSignature req = computedSignatureHex req env) ∧
    (∀ s', isQueryAuth req = true →
      spHas req.url.searchParams "X-Amz-Signature" = true →
      verifySignature req env = true → s' ≠ suppliedSignature req →
      verifySignature (setQuerySignature req s') env = false) := by
  have hiff : ∀ r, algorithmOf r ≠ "" → jsIncludes (algorithmOf r) "AWS4-HMAC-SHA256" = true →
      datetimeOf r ≠ "" →
      ((verifySignature r env = true) ↔
        suppliedSignature r = computedSignatureHex r env) := by
    intro r h1 h2 h3
    simp only [verifySignature]
    rw [if_neg (by simp [h1, h2]), if_neg h3, beq_iff_eq]
    exact eq_comm
  refine ⟨hiff req halg1 halg2 hdt, ?_⟩
  intro s' hq hhas hver hne
  have heq : suppliedSignature req = computedSignatureHex req env :=
    (hiff req halg1 halg2 hdt).mp hver
  have h1' : algorithmOf (setQuerySignature req s') ≠ "" := by
    rw [algorithmOf_setSig]; exact halg1
  have h2' : jsIncludes (algorithmOf (setQuerySignature req s')) "AWS4-HMAC-SHA256" = true := by
    rw [algorithmOf_setSig]; exact halg2
  have h3' : datetimeOf (setQuerySignature req s') ≠ "" := by
    rw [datetimeOf_setSig]; exact hdt
  rw [Bool.eq_false_iff]
  intro habs
  have := (hiff (setQuerySignature req s') h1' h2' h3').mp habs
  rw [suppliedSignature_setSig req s' hq hhas, computedSignatureHex_setSig] at this
  exact hne (this.trans heq.symm)

/-- C2 witness: the equivalence applied to a concrete gates-passing
query-auth request. -/
theorem c2_signature_equality_witness :
    algorithmOf reqC2w ≠ "" ∧
    jsIncludes (algorithmOf reqC2w) "AWS4-HMAC-SHA256" = true ∧
    datetimeOf reqC2w ≠ "" ∧
    ((verifySignature reqC2w testEnv = true) ↔
      suppliedSignature reqC2w = computedSignatureHex reqC2w testEnv) :=
  ⟨by decide, by decide, by decide,
   (c2_signature_equality reqC2w testEnv (by decide) (by decide) (by decide)).1⟩

/-- C2 counterexample: a request whose supplied signature equals the
recomputed hex, yet `verifySignature` returns false because the algorithm
gate fires first - so the unconditional "returns true iff the supplied
signature equals the HMAC hex" of the claim is false as stated. -/
theorem c2_gate_counterexample :
    suppliedSignature reqAlgBad = computedSignatureHex reqAlgBad testEnv ∧
    verifySignature reqAlgBad testEnv = false := by
  refine ⟨by decide, by decide⟩

/-! ## Claim C4: canonical request is query-order-independent

The comparator sorts only by key, and JavaScript's sort is stable, so
duplicate keys keep their input order: permuting parameters with duplicate
keys can change the canonical request.  With pairwise-distinct keys the
sorted list — hence the canonical request — is permutation-invariant. -/

/-- Helper: the code-unit order is asymmetric. -/
theorem u16lt_asymm : ∀ u v, u16lt u v = true → u16lt v u = true → False
  | [], [], h, _ => by simp [u16lt] at h
  | [], _ :: _, _, h2 => by simp [u16lt] at h2
  | _ :: _, [], h1, _ => by simp [u16lt] at h1
  | a :: u, b :: v, h1, h2 => by
    simp only [u16lt, Bool.or_eq_true, Bool.and_eq_true, decide_eq_true_eq] at h1 h2
    rcases h1 with h1 | ⟨hab, h1⟩ <;> rcases h2 with h2 | ⟨hba, h2⟩
    · omega
    · omega
    · omega
    · exact u16lt_asymm u v h1 h2

/-- Helper: the code-unit order is transitive. -/
theorem u16lt_trans : ∀ u v w, u16lt u v = true → u16lt v w = true → u16lt u w = true
  | [], [], _, h1, _ => by simp [u16lt] at h1
  | [], _ :: _, [], _, h2 => by simp [u16lt] at h2
  | [], _ :: _, _ :: _, _, _ => by simp [u16lt]
  | _ :: _, [], _, h1, _ => by simp [u16lt] at h1
  | _ :: _, _ :: _, [], _, h2 => by simp [u16lt] at h2
  | a :: u, b :: v, c :: w, h1, h2 => by
    simp only [u16lt, Bool.or_eq_true, Bool.and_eq_true, decide_eq_true_eq] at h1 h2 ⊢
    rcases h1 with h1 | ⟨hab, h1⟩ <;> rcases h2 with h2 | ⟨hbc, h2⟩
    · exact Or.inl (by omega)
    · exact Or.inl (by omega)
    · exact Or.inl (by omega)
    · exact Or.inr ⟨by omega, u16lt_trans u v w h1 h2⟩

/-- Helper: unit sequences neither of which is below the other are equal. -/
theorem u16lt_conn : ∀ u v, u16lt u v = false → u16lt v u = false → u = v
  | [], [], _, _ => rfl
  | [], _ :: _, h1, _ => by simp [u16lt] at h1
  | _ :: _, [], _, h2 => by simp [u16lt] at h2
  | a :: u, b :: v, h1, h2 => by
    simp only [u16lt, Bool.or_eq_false_iff, Bool.and_eq_false_iff,
      decide_eq_false_iff_not] at h1 h2
    obtain ⟨hab, h1'⟩ := h1
    obtain ⟨hba, h2'⟩ := h2
    have heq : a = b := by omega
    subst heq
    rcases h1' with h | h1'
    · exact absurd rfl h
    · rcases h2' with h | h2'
      · exact absurd rfl h
      · rw [u16lt_conn u v h1' h2']

/-- Helper: characters with the same code point are equal. -/
theorem charToNat_inj {c₁ c₂ : Char} (h : c₁.toNat = c₂.toNat) : c₁ = c₂ :=
  Char.eq_of_val_eq (UInt32.ext h)

/-- Helper: a character's code point avoids the surrogate range. -/
theorem char_valid_nat (c : Char) : c.toNat < 55296 ∨ (57343 < c.toNat ∧ c.toNat < 1114112) :=
  c.valid

/-- Helper: UTF-16 encodings are a prefix code, so the first character and
the remainder are recoverable. -/
theorem utf16Char_append_inj {c₁ c₂ : Char} {r₁ r₂ : List Nat}
    (h : utf16Char c₁ ++ r₁ = utf16Char c₂ ++ r₂) : c₁ = c₂ ∧ r₁ = r₂ := by
  have v₁ := char_valid_nat c₁
  have v₂ := char_valid_nat c₂
  by_cases h₁ : c₁.toNat < 65536 <;> by_cases h₂ : c₂.toNat < 65536 <;>
    simp only [utf16Char, h₁, h₂, if_pos, if_neg, if_true, if_false, List.cons_append,
      List.nil_append, List.cons.injEq] at h
  · exact ⟨charToNat_inj h.1, h.2⟩
  · exfalso; omega
  · exfalso; omega
  · refine ⟨charToNat_inj ?_, h.2.2⟩
    omega

/-- Helper: UTF-16 encoding of character lists is injective. -/
theorem utf16Chars_inj : ∀ l₁ l₂ : List Char,
    (l₁.map utf16Char).flatten = (l₂.map utf16Char).flatten → l₁ = l₂
  | [], [], _ => rfl
  | [], c :: _, h => by
    exfalso
    have v := char_valid_nat c
    by_cases hc : c.toNat < 65536 <;> simp [utf16Char, hc] at h
  | c :: _, [], h => by
    exfalso
    have v := char_valid_nat c
    by_cases hc : c.toNat < 65536 <;> simp [utf16Char, hc] at h
  | c₁ :: t₁, c₂ :: t₂, h => by
    simp only [List.map_cons, List.flatten_cons] at h
    obtain ⟨hc, ht⟩ := utf16Char_append_inj h
    rw [hc, utf16Chars_inj t₁ t₂ ht]

/-- Helper: strings with the same UTF-16 units are equal. -/
theorem utf16Units_inj {a b : String} (h : utf16Units a = utf16Units b) : a = b := by
  cases a with
  | mk da =>
    cases b with
    | mk db =>
      congr 1
      exact utf16Chars_inj da db h

instance : IsTotal (String × String) paramOrder :=
  ⟨fun x y => by
    unfold paramOrder
    cases hab : jsStrLt y.1 x.1
    · exact Or.inl rfl
    · cases hba : jsStrLt x.1 y.1
      · exact Or.inr rfl
      · exact absurd (u16lt_asymm _ _ hab hba) not_false⟩

instance : IsTrans (String × String) paramOrder :=
  ⟨fun a b c h1 h2 => by
    unfold paramOrder jsStrLt at h1 h2 ⊢
    cases hca : u16lt (utf16Units c.1) (utf16Units a.1)
    · rfl
    · exfalso
      cases hbc : u16lt (utf16Units b.1) (utf16Units c.1)
      · have hbceq : utf16Units b.1 = utf16Units c.1 := u16lt_conn _ _ hbc h2
        rw [← hbceq] at hca
        rw [h1] at hca
        exact Bool.false_ne_true hca
      · have hba := u16lt_trans _ _ _ hbc hca
        rw [h1] at hba
        exact Bool.false_ne_true hba⟩

instance : IsAntisymm (String × String) paramKeyLt :=
  ⟨fun _ _ h1 h2 => (u16lt_asymm _ _ h1 h2).elim⟩

/-- Helper: `paramOrder` plus distinct keys gives the strict key order. -/
theorem key_lt_of_order_ne (a b : String × String) (h : paramOrder a b) (hne : a.1 ≠ b.1) :
    paramKeyLt a b := by
  unfold paramOrder jsStrLt at h
  unfold paramKeyLt jsStrLt
  cases hab : u16lt (utf16Units a.1) (utf16Units b.1)
  · exact absurd (utf16Units_inj (u16lt_conn _ _ hab h)) hne
  · rfl

/-- Helper: a `paramOrder`-sorted list with distinct keys is strictly
sorted by key. -/
theorem sorted_keyLt_of_sorted_order (l : List (String × String))
    (hs : l.Sorted paramOrder) (hn : (l.map Prod.fst).Nodup) : l.Sorted paramKeyLt := by
  have hne : l.Pairwise (fun a b : String × String => a.1 ≠ b.1) := List.pairwise_map.mp hn
  exact (hs.and hne).imp (fun h => key_lt_of_order_ne _ _ h.1 h.2)

/-- Helper: with pairwise-distinct keys the sorted parameter list is the
same for any permutation of the input. -/
theorem insertionSort_eq_of_perm_nodup (l₁ l₂ : List (String × String))
    (hperm : l₁.Perm l₂) (hn : (l₂.map Prod.fst).Nodup) :
    l₁.insertionSort paramOrder = l₂.insertionSort paramOrder := by
  have p₁ := List.perm_insertionSort paramOrder l₁
  have p₂ := List.perm_insertionSort paramOrder l₂
  have hperm' : List.Perm (l₁.insertionSort paramOrder) (l₂.insertionSort paramOrder) :=
    p₁.trans (hperm.trans p₂.symm)
  have hn₂ : ((l₂.insertionSort paramOrder).map Prod.fst).Nodup :=
    ((p₂.map Prod.fst).nodup_iff).mpr hn
  have hn₁ : ((l₁.insertionSort paramOrder).map Prod.fst).Nodup :=
    ((hperm'.map Prod.fst).nodup_iff).mpr hn₂
  exact List.eq_of_perm_of_sorted hperm'
    (sorted_keyLt_of_sorted_order _ (List.sorted_insertionSort paramOrder l₁) hn₁)
    (sorted_keyLt_of_sorted_order _ (List.sorted_insertionSort paramOrder l₂) hn₂)

/-- Helper: the canonical query string is permutation-invariant for
distinct keys. -/
theorem canonicalizeParams_perm (ps' ps : List (String × String))
    (hperm : ps'.Perm ps) (hnodup : (ps.map Prod.fst).Nodup) :
    canonicalizeParams ps' = canonicalizeParams ps := by
  simp only [canonicalizeParams]
  have hkept : (ps'.filter (fun p => p.1 ≠ "X-Amz-Signature")).Perm
      (ps.filter (fun p => p.1 ≠ "X-Amz-Signature")) := hperm.filter _
  have hnk : ((ps.filter (fun p => p.1 ≠ "X-Amz-Signature")).map Prod.fst).Nodup :=
    hnodup.sublist ((List.filter_sublist ps).map Prod.fst)
  rw [insertionSort_eq_of_perm_nodup _ _ hkept hnk]

/-- Helper: a lookup hit is a member. -/
theorem spGet_mem : ∀ (ps : List (String × String)) (k v : String),
    spGet ps k = some v → (k, v) ∈ ps
  | [], _, _, h => by simp [spGet] at h
  | p :: rest, k, v, h => by
    by_cases hp : p.1 = k
    · simp only [spGet, if_pos hp] at h
      have hv : p.2 = v := Option.some.inj h
      rw [← hp, ← hv]
      exact List.mem_cons_self p rest
    · simp only [spGet, if_neg hp] at h
      exact List.mem_cons_of_mem _ (spGet_mem rest k v h)

/-- Helper: a lookup miss means no member has the key. -/
theorem spGet_eq_none_iff : ∀ (ps : List (String × String)) (k : String),
    spGet ps k = none ↔ ∀ v, (k, v) ∉ ps
  | [], k => by simp [spGet]
  | p :: rest, k => by
    by_cases hp : p.1 = k
    · simp only [spGet, if_pos hp]
      constructor
      · intro h; cases h
      · intro h
        exfalso
        apply h p.2
        rw [← hp]
        exact List.mem_cons_self p rest
    · simp only [spGet, if_neg hp]
      rw [spGet_eq_none_iff rest k]
      constructor
      · intro h v hv
        rcases List.mem_cons.mp hv with he | hm
        · exact hp (by rw [← he])
        · exact h v hm
      · intro h v hv
        exact h v (List.mem_cons_of_mem _ hv)

/-- Helper: with distinct keys, membership determines the lookup. -/
theorem spGet_of_mem_nodup : ∀ (ps : List (String × String)) (k v : String),
    (ps.map Prod.fst).Nodup → (k, v) ∈ ps → spGet ps k = some v
  | [], _, _, _, hm => absurd hm (List.not_mem_nil _)
  | p :: rest, k, v, hn, hm => by
    simp only [List.map_cons, List.nodup_cons] at hn
    rcases List.mem_cons.mp hm with he | hm'
    · rw [← he]
      simp [spGet]
    · have hp : p.1 ≠ k := by
        intro h
        exact hn.1 (by rw [h]; exact List.mem_map.mpr ⟨(k, v), hm', rfl⟩)
      simp only [spGet, if_neg hp]
      exact spGet_of_mem_nodup rest k v hn.2 hm'

/-- Helper: lookups are permutation-invariant when keys are distinct. -/
theorem spGet_perm (ps' ps : List (String × String)) (hperm : ps'.Perm ps)
    (hnodup : (ps.map Prod.fst).Nodup) (k : String) : spGet ps' k = spGet ps k := by
  rcases ho : spGet ps k with _ | v
  · rcases ho' : spGet ps' k with _ | v'
    · rfl
    · exfalso
      have hm := hperm.mem_iff.mp (spGet_mem ps' k v' ho')
      exact (spGet_eq_none_iff ps k).mp ho v' hm
  · have hm := hperm.mem_iff.mpr (spGet_mem ps k v ho)
    have hn' : (ps'.map Prod.fst).Nodup := ((hperm.map Prod.fst).nodup_iff).mpr hnodup
    rw [spGet_of_mem_nodup ps' k v hn' hm]

/-- C4 (amended): for every request whose query parameters have pairwise
distinct keys, building the canonical request from any permutation of the
parameters yields a byte-identical string (the parameters other than
`X-Amz-Signature` are sorted by key before encoding), and the
percent-encoding is the strict RFC 3986 rule that also escapes `!'()*`.
With duplicate keys the claim fails because the sort is stable and
compares keys only. -/
theorem c4_canonical_order_independent :
    (∀ (req : Request) (ps' : List (String × String)) (iq : Bool),
      List.Perm ps' req.url.searchParams →
      (req.url.searchParams.map Prod.fst).Nodup →
      createCanonicalRequest (withParams req ps') iq = createCanonicalRequest req iq) ∧
    encodeRFC3986 "!'()*" = "%21%27%28%29%2A" := by
  constructor
  · intro req ps' iq hperm hnodup
    have hparams : canonicalizeParams ps' = canonicalizeParams req.url.searchParams :=
      canonicalizeParams_perm _ _ hperm hnodup
    have hshl : signedHeadersListOf (withParams req ps') iq = signedHeadersListOf req iq := by
      cases iq
      · rfl
      · simp only [signedHeadersListOf, if_true]
        rw [show (withParams req ps').url.searchParams = ps' from rfl]
        rw [spGet_perm ps' req.url.searchParams hperm hnodup "X-Amz-SignedHeaders"]
    simp only [createCanonicalRequest]
    rw [show (withParams req ps').url.searchParams = ps' from rfl, hparams, hshl]
    rfl
  · decide

/-- C4 witness: the permutation and distinct-keys hypotheses discharged at
a concrete two-key request. -/
theorem c4_canonical_order_independent_witness :
    List.Perm ([("a", "1"), ("b", "2")] : List (String × String)) reqTwoKeys.url.searchParams ∧
    (reqTwoKeys.url.searchParams.map Prod.fst).Nodup ∧
    createCanonicalRequest (withParams reqTwoKeys [("a", "1"), ("b", "2")]) false =
      createCanonicalRequest reqTwoKeys false :=
  ⟨by decide, by decide,
   c4_canonical_order_independent.1 reqTwoKeys [("a", "1"), ("b", "2")] false
     (by decide) (by decide)⟩

/-- C4 counterexample: with the duplicate keys `a=1&a=2`, permuting the two
parameters changes the canonical request (stable sort keeps input order of
equal keys), so the claim's "for every list of query parameters" fails. -/
theorem c4_duplicate_keys_counterexample :
    List.Perm ([("a", "2"), ("a", "1")] : List (String × String))
      reqDupKeys1.url.searchParams ∧
    createCanonicalRequest (withParams reqDupKeys1 [("a", "2"), ("a", "1")]) false ≠
      createCanonicalRequest reqDupKeys1 false := by
  refine ⟨by decide, by decide⟩

end B2Proxy
